import Mathlib

set_option maxRecDepth 8000
set_option maxHeartbeats 1000000

namespace Zelfm

/-! Shallow embedding of the zelfm broadcast pipeline
    (src/audio_source.rs, src/broadcaster.rs, src/service.rs, src/main.rs).

    The tokio broadcast channel is the environment primitive both buses are
    built on; it is modelled by its documented semantics: `send` fails and
    returns the value exactly when there are zero current receivers, even
    while the `Sender` handle is alive and can still create receivers via
    `subscribe`; a new receiver starts at the live edge of the history. -/

/-- State of a tokio broadcast channel as seen from the sender side: the
values published so far, one cursor per currently active receiver, and
whether the `Sender` handle is alive (so further receivers can be created).
Used for both the PCM fan-out bus and the chat bus of src/broadcaster.rs. -/
structure BroadcastState (α : Type) where
  history : List α
  receiverCursors : List Nat
  senderAlive : Bool
  deriving Repr, DecidableEq

/-- tokio `broadcast::Sender::send`: fails (second component `false`) exactly
when there are zero current receivers; otherwise appends to the history. -/
def broadcast_send {α : Type} (st : BroadcastState α) (v : α) :
    BroadcastState α × Bool :=
  if st.receiverCursors = [] then (st, false)
  else ({ st with history := st.history ++ [v] }, true)

/-- tokio `broadcast::Sender::subscribe`: while the sender is alive a new
receiver can be created; it joins at the live edge of the history. -/
def subscribe_bus {α : Type} (st : BroadcastState α) : BroadcastState α :=
  if st.senderAlive then
    { st with receiverCursors := st.receiverCursors ++ [st.history.length] }
  else st

/-! Source decoder, src/audio_source.rs. A `Packet` records how one iteration
    of the packet loop of `decode_file_once` goes: a packet of another track
    (skipped), a packet that decodes to a PCM block (published), a packet
    whose decode fails with `DecodeError` (skipped), a packet whose decode
    fails with any other error (pass aborted), a `ResetRequired` from
    `next_packet` (pass ends, loop again), or any other `next_packet` error
    (pass aborted). The end of the packet list models `next_packet`
    returning the `UnexpectedEof` io error at the end of the file. -/

inductive Packet (β : Type) where
  | wrongTrack
  | good (block : β)
  | badPacket
  | fatalDecode
  | resetRequired
  | fatalFormat
  deriving Repr, DecidableEq

/-- Result of one pass of `decode_file_once`: `Ok(true)` (file finished, the
outer loop restarts it), `Ok(false)` (a publish failed, shut down), or
`Err(..)` (the pass aborted on a fatal error). -/
inductive PassResult where
  | looping
  | shutdown
  | aborted
  deriving Repr, DecidableEq

/-- Embedding of the packet loop of `decode_file_once`
(src/audio_source.rs lines 129-175): wrong-track packets and
`DecodeError` packets are skipped; fatal decode or format errors return
`Err`; `ResetRequired` or end of file break with `Ok(true)`; a decoded
block is published on the bus, and a failed publish returns `Ok(false)`. -/
def decode_file_once {β : Type} :
    List (Packet β) → BroadcastState β → BroadcastState β × PassResult
  | [], st => (st, PassResult.looping)
  | Packet.wrongTrack :: ps, st => decode_file_once ps st
  | Packet.badPacket :: ps, st => decode_file_once ps st
  | Packet.fatalDecode :: _, st => (st, PassResult.aborted)
  | Packet.resetRequired :: _, st => (st, PassResult.looping)
  | Packet.fatalFormat :: _, st => (st, PassResult.aborted)
  | Packet.good b :: ps, st =>
      let r := broadcast_send st b
      if r.2 then decode_file_once ps r.1 else (r.1, PassResult.shutdown)

/-- Event of the outer loop `file_decode_loop` (src/audio_source.rs lines
51-67): the result of a pass, or the one second sleep taken after an
aborted pass. -/
inductive LoopEvent where
  | passDone (r : PassResult)
  | sleep_secs (n : Nat)
  deriving Repr, DecidableEq

/-- Embedding of `file_decode_loop` run for a given number of iterations:
on `Ok(true)` the same file is decoded again from the beginning; on `Err`
the thread sleeps one second and decodes the file again from the
beginning; on `Ok(false)` the loop breaks. Returns the bus state, the
event trace, and whether the loop exited. -/
def file_decode_loop_run {β : Type} (file : List (Packet β)) :
    Nat → BroadcastState β → BroadcastState β × List LoopEvent × Bool
  | 0, st => (st, [], false)
  | Nat.succ n, st =>
      let d := decode_file_once file st
      match d.2 with
      | PassResult.shutdown =>
          (d.1, [LoopEvent.passDone PassResult.shutdown], true)
      | PassResult.looping =>
          let r := file_decode_loop_run file n d.1
          (r.1, LoopEvent.passDone PassResult.looping :: r.2.1, r.2.2)
      | PassResult.aborted =>
          let r := file_decode_loop_run file n d.1
          (r.1, LoopEvent.passDone PassResult.aborted ::
                  LoopEvent.sleep_secs 1 :: r.2.1, r.2.2)

/-- Packets that neither end nor abort a pass. -/
def Packet.benign {β : Type} : Packet β → Bool
  | Packet.wrongTrack => true
  | Packet.good _ => true
  | Packet.badPacket => true
  | _ => false

/-- Blocks published by the good packets of a list, in order. -/
def good_blocks {β : Type} : List (Packet β) → List β
  | [] => []
  | Packet.good b :: ps => b :: good_blocks ps
  | _ :: ps => good_blocks ps

/-- Interleaved-to-planar conversion of src/audio_source.rs lines 162-165:
sample `i` of the interleaved buffer is pushed onto plane `i % num_channels`,
giving one plane per source channel. -/
def to_planar {α : Type} (num_channels : Nat) (interleaved : List α) :
    List (List α) :=
  (List.range num_channels).map fun c =>
    interleaved.enum.filterMap fun p =>
      if p.1 % num_channels = c then some p.2 else none

/-! Per-listener encoder worker, src/broadcaster.rs lines 128-213.
    `RecvResult` mirrors tokio `broadcast::Receiver::blocking_recv`:
    a block, a lag signal, or channel closure. -/

inductive RecvResult (β : Type) where
  | ok (b : β)
  | lagged (n : Nat)
  | closed
  deriving Repr, DecidableEq

/-- Observable steps of the encoder worker: a block handed to
`encoder.encode_audio_block` exactly as received,. an encode error, or the
final `encoder.finish()`. -/
inductive WorkerEvent (β : Type) where
  | encoded (b : β)
  | encodeError
  | finishedEncoder
  deriving Repr, DecidableEq

/-- Embedding of the worker loop `while let Ok(pcm_block) =
pcm_rx.blocking_recv()` (src/broadcaster.rs lines 194-203): an `Ok` block
is handed unchanged to the encoder (an encoder error breaks the loop); any
receive error, `Lagged` included, ends the loop. The second component tells
whether the loop exited (as opposed to still being blocked on a receive). -/
def encoder_loop {β : Type} (encode_ok : β → Bool) :
    List (RecvResult β) → List (WorkerEvent β) × Bool
  | [] => ([], false)
  | RecvResult.ok b :: rest =>
      if encode_ok b then
        let r := encoder_loop encode_ok rest
        (WorkerEvent.encoded b :: r.1, r.2)
      else ([WorkerEvent.encodeError], true)
  | RecvResult.lagged _ :: _ => ([], true)
  | RecvResult.closed :: _ => ([], true)

/-- The whole worker (src/broadcaster.rs lines 191-212): after the loop
exits, `encoder.finish()` runs. -/
def encoder_worker {β : Type} (encode_ok : β → Bool)
    (rs : List (RecvResult β)) : List (WorkerEvent β) :=
  let r := encoder_loop encode_ok rs
  if r.2 then r.1 ++ [WorkerEvent.finishedEncoder] else r.1

/-- Target channel count the broadcaster is built with in src/main.rs
line 99 (stereo). -/
def station_target_channels : Nat := 2

/-- Target sample rate the broadcaster is built with in src/main.rs
line 98. -/
def station_sample_rate : Nat := 44100

/-! Byte sink of the encoder, `ChannelWriter` in src/broadcaster.rs lines
    130-172, writing into the bounded ogg chunk queue. -/

/-- Capacity of the ogg byte queue, `tokio::sync::mpsc::channel::<Vec<u8>>(10)`
at src/broadcaster.rs line 126. -/
def ogg_queue_capacity : Nat := 10

/-- State of the ogg chunk queue: whether the receive half was dropped, and
the chunks sent so far. `blocking_send` on an open queue blocks until room
is available and then succeeds; it fails only when the queue is closed. -/
structure OggQueue where
  closed : Bool
  sent : List (List Nat)
  deriving Repr, DecidableEq

/-- tokio mpsc `blocking_send`: fails exactly when the queue is closed. -/
def blocking_send_chunk (q : OggQueue) (chunk : List Nat) : OggQueue × Bool :=
  if q.closed then (q, false)
  else ({ q with sent := q.sent ++ [chunk] }, true)

structure ChannelWriter where
  buffer : List Nat
  deriving Repr, DecidableEq

inductive IoErrorKind where
  | brokenPipe
  deriving Repr, DecidableEq

/-- Embedding of `ChannelWriter::write` (src/broadcaster.rs lines 136-150):
the input bytes are appended to the internal buffer; if the buffer has
reached 8192 bytes the whole buffer is sent as one chunk and cleared, and a
failed send becomes a broken-pipe error; the return value is the length of
the input. -/
def channel_writer_write (w : ChannelWriter) (q : OggQueue) (buf : List Nat) :
    Except IoErrorKind (ChannelWriter × OggQueue × Nat) :=
  let buffer2 := w.buffer ++ buf
  if 8192 ≤ buffer2.length then
    let r := blocking_send_chunk q buffer2
    if r.2 then Except.ok (⟨[]⟩, r.1, buf.length)
    else Except.error IoErrorKind.brokenPipe
  else Except.ok (⟨buffer2⟩, q, buf.length)

/-- Embedding of `ChannelWriter::flush` (src/broadcaster.rs lines 152-165):
a non-empty buffer is sent as one chunk and cleared; a failed send becomes
a broken-pipe error; an empty buffer does nothing. -/
def channel_writer_flush (w : ChannelWriter) (q : OggQueue) :
    Except IoErrorKind (ChannelWriter × OggQueue) :=
  if w.buffer = [] then Except.ok (w, q)
  else
    let r := blocking_send_chunk q w.buffer
    if r.2 then Except.ok (⟨[]⟩, r.1)
    else Except.error IoErrorKind.brokenPipe

/-! The `listen` session, src/broadcaster.rs lines 110-246. -/

/-- The per-write deadline `SEND_TIMEOUT` of src/broadcaster.rs line 216,
in seconds. -/
def send_timeout_secs : Nat := 30

inductive WriteOutcome where
  | okInTime
  | ioError
  | timedOut
  deriving Repr, DecidableEq

/-- tokio `timeout(SEND_TIMEOUT, send.write_all(..))`: if the write takes
longer than the deadline the timer fires first; otherwise the write result
comes back in time. -/
def write_with_deadline (deadline_secs write_takes_secs : Nat)
    (write_succeeds : Bool) : WriteOutcome :=
  if deadline_secs < write_takes_secs then WriteOutcome.timedOut
  else if write_succeeds then WriteOutcome.okInTime else WriteOutcome.ioError

/-- Observable steps of one `listen` session, in program order. -/
inductive SessionEvent where
  | incCounter
  | logConnect
  | subscribePcm
  | spawnEncoder
  | wroteChunk
  | writeError
  | writeTimeout
  | finishStream
  | abortEncoder
  | decCounter
  | logDisconnect
  deriving Repr, DecidableEq

/-- Embedding of the chunk send loop (src/broadcaster.rs lines 218-236):
each pending chunk is written with the 30 second deadline; a timely
successful write continues the loop, an io error or an expired deadline
breaks it; the end of the list models the queue closing (recv `None`). Each
list element gives how long the underlying write takes and whether it
succeeds. -/
def send_loop : List (Nat × Bool) → List SessionEvent
  | [] => []
  | (takes, succeeds) :: rest =>
      match write_with_deadline send_timeout_secs takes succeeds with
      | WriteOutcome.okInTime => SessionEvent.wroteChunk :: send_loop rest
      | WriteOutcome.ioError => [SessionEvent.writeError]
      | WriteOutcome.timedOut => [SessionEvent.writeTimeout]

/-- Steps before the send loop: the counter increment is the first
statement of `listen` (line 116), then the connect log, the bus
subscription and the encoder spawn. -/
def accept_steps : List SessionEvent :=
  [SessionEvent.incCounter, SessionEvent.logConnect,
   SessionEvent.subscribePcm, SessionEvent.spawnEncoder]

/-- Cleanup after the send loop (src/broadcaster.rs lines 238-243):
`send.finish()`, then `encoder_task.abort()`, then the counter decrement,
then the disconnect log, in that order. -/
def cleanup_steps : List SessionEvent :=
  [SessionEvent.finishStream, SessionEvent.abortEncoder,
   SessionEvent.decCounter, SessionEvent.logDisconnect]

/-- Full event trace of a `listen` session that runs to completion (normal
queue closure, write error, or stall). -/
def listen_trace (writes : List (Nat × Bool)) : List SessionEvent :=
  accept_steps ++ send_loop writes ++ cleanup_steps

/-- Event trace of a `listen` session cancelled while suspended at an await
point inside the send loop. Dropping a Rust future at an await runs no
further statement of the function body, and `listen` installs no drop guard:
the cleanup block, the decrement included, never executes. -/
def listen_trace_cancelled (writes_done : List (Nat × Bool)) :
    List SessionEvent :=
  accept_steps ++ send_loop writes_done

/-! Listener counter and listener ids. `listen` draws the id from the same
    atomic counter it uses as the listener count: `fetch_add(1)` at accept
    (line 116) and `fetch_sub(1)` at teardown (line 242), both on a usize. -/

def usize_modulus : Nat := 2 ^ 64

inductive ListenerEvent where
  | accept
  | teardown
  deriving Repr, DecidableEq

/-- Runs a sequence of accepts and teardowns against the shared counter,
returning the final counter value and the listener ids assigned at the
accepts, in accept order. `fetch_add` returns the previous value;
`fetch_sub` wraps modulo `M`, which is instantiated at `usize_modulus`
for the 64 bit usize of the source. -/
def run_listener_events (M : Nat) : List ListenerEvent → Nat → Nat × List Nat
  | [], c => (c, [])
  | ListenerEvent.accept :: es, c =>
      let r := run_listener_events M es ((c + 1) % M)
      (r.1, c :: r.2)
  | ListenerEvent.teardown :: es, c =>
      run_listener_events M es ((c + (M - 1)) % M)

/-! Chat: src/service.rs data and the chat endpoints of src/broadcaster.rs. -/

structure ListenerInfo where
  id : Nat
  nickname : Option String
  deriving Repr, DecidableEq

structure ChatMessage where
  listener_id : Nat
  nickname : Option String
  message : String
  timestamp : Nat
  deriving Repr, DecidableEq

/-- Capacity of the chat broadcast channel, `broadcast::channel(100)` at
src/broadcaster.rs line 41. -/
def chat_channel_capacity : Nat := 100

/-- Receive results a chat subscriber with cursor `c` sees while draining a
bus whose final history is `h`, after which the channel closes. Mirrors
tokio broadcast receive: if the subscriber is more than the capacity
behind, one `lagged` signal reports the number of dropped messages and the
cursor jumps to the oldest retained message; afterwards every retained
message arrives in order, then closure. -/
def chat_recv_drain {β : Type} (h : List β) (c : Nat) :
    List (RecvResult β) :=
  if chat_channel_capacity < h.length - c then
    RecvResult.lagged (h.length - chat_channel_capacity - c) ::
      ((h.drop (h.length - chat_channel_capacity)).map RecvResult.ok ++
        [RecvResult.closed])
  else (h.drop c).map RecvResult.ok ++ [RecvResult.closed]

/-- Embedding of the `chat_stream` loop (src/broadcaster.rs lines 101-105):
`while let Ok(msg) = chat_rx.recv().await` forwards each message to the
sink and breaks on a sink failure; any receive error, `Lagged` included,
ends the loop. Returns the messages successfully forwarded. -/
def chat_stream_loop {β : Type} (sink_ok : β → Bool) :
    List (RecvResult β) → List β
  | [] => []
  | RecvResult.ok m :: rest =>
      if sink_ok m then m :: chat_stream_loop sink_ok rest else []
  | RecvResult.lagged _ :: _ => []
  | RecvResult.closed :: _ => []

/-- Embedding of `chat_stream` (src/broadcaster.rs lines 94-108): subscribe
at cursor `sub_cursor`, drain, and return `Ok(())` whatever happened. -/
def chat_stream {β : Type} (sink_ok : β → Bool) (h : List β)
    (sub_cursor : Nat) : List β × Except String Unit :=
  (chat_stream_loop sink_ok (chat_recv_drain h sub_cursor), Except.ok ())

/-- Embedding of `send_chat` (src/broadcaster.rs lines 70-92): if the
per-connection `ListenerInfo` is missing the call returns the error string;
otherwise a `ChatMessage` with the caller id, nickname, the message and the
current wall-clock seconds is published on the chat bus, the publish result
is discarded, and the call returns ok. -/
def send_chat (info : Option ListenerInfo) (message : String)
    (now_secs : Nat) (bus : BroadcastState ChatMessage) :
    Except String (BroadcastState ChatMessage) :=
  match info with
  | none => Except.error "Listener info not found"
  | some li =>
      let chat : ChatMessage := ⟨li.id, li.nickname, message, now_secs⟩
      let r := broadcast_send bus chat
      Except.ok r.1

/-! Helper lemmas shared by several claims. -/

theorem broadcast_send_of_receivers {β : Type} (st : BroadcastState β) (b : β)
    (h : st.receiverCursors ≠ []) :
    broadcast_send st b = ({ st with history := st.history ++ [b] }, true) := by
  simp [broadcast_send, h]

theorem decode_benign_append {β : Type} (ps1 ps2 : List (Packet β))
    (st : BroadcastState β) (hrecv : st.receiverCursors ≠ [])
    (hb : ∀ p ∈ ps1, p.benign = true) :
    decode_file_once (ps1 ++ ps2) st
      = decode_file_once ps2
          { st with history := st.history ++ good_blocks ps1 } := by
  induction ps1 generalizing st with
  | nil => simp [good_blocks]
  | cons p ps ih =>
      cases p with
      | wrongTrack =>
          have h2 := ih st hrecv (fun q hq => hb q (List.mem_cons_of_mem _ hq))
          simpa [decode_file_once, good_blocks] using h2
      | badPacket =>
          have h2 := ih st hrecv (fun q hq => hb q (List.mem_cons_of_mem _ hq))
          simpa [decode_file_once, good_blocks] using h2
      | good b =>
          have hsend := broadcast_send_of_receivers st b hrecv
          have h2 := ih { st with history := st.history ++ [b] } hrecv
            (fun q hq => hb q (List.mem_cons_of_mem _ hq))
          simp [decode_file_once, hsend, good_blocks, h2, List.append_assoc]
      | fatalDecode =>
          have h2 := hb Packet.fatalDecode (by simp)
          simp [Packet.benign] at h2
      | resetRequired =>
          have h2 := hb Packet.resetRequired (by simp)
          simp [Packet.benign] at h2
      | fatalFormat =>
          have h2 := hb Packet.fatalFormat (by simp)
          simp [Packet.benign] at h2

theorem decode_benign_run {β : Type} (ps : List (Packet β))
    (st : BroadcastState β) (hrecv : st.receiverCursors ≠ [])
    (hb : ∀ p ∈ ps, p.benign = true) :
    decode_file_once ps st
      = ({ st with history := st.history ++ good_blocks ps },
          PassResult.looping) := by
  have h := decode_benign_append ps [] st hrecv hb
  simpa [decode_file_once] using h

theorem decode_skip_bad {β : Type} (ps1 ps2 : List (Packet β))
    (st : BroadcastState β) :
    decode_file_once (ps1 ++ Packet.badPacket :: ps2) st
      = decode_file_once (ps1 ++ ps2) st := by
  induction ps1 generalizing st with
  | nil => simp [decode_file_once]
  | cons p ps ih =>
      cases p with
      | wrongTrack => simp [decode_file_once, ih]
      | badPacket => simp [decode_file_once, ih]
      | good b =>
          simp only [List.cons_append, decode_file_once]
          by_cases hr : st.receiverCursors = []
          · simp [broadcast_send, hr]
          · simp [broadcast_send, hr, ih]
      | fatalDecode => simp [decode_file_once]
      | resetRequired => simp [decode_file_once]
      | fatalFormat => simp [decode_file_once]

theorem loop_benign_run {β : Type} (file : List (Packet β)) (n : Nat)
    (st : BroadcastState β) (hrecv : st.receiverCursors ≠ [])
    (hb : ∀ p ∈ file, p.benign = true) :
    (file_decode_loop_run file n st).1.history
        = st.history ++ (List.replicate n (good_blocks file)).flatten ∧
    (file_decode_loop_run file n st).1.receiverCursors = st.receiverCursors ∧
    (file_decode_loop_run file n st).2.2 = false := by
  induction n generalizing st with
  | zero => simp [file_decode_loop_run]
  | succ n ih =>
      have hd := decode_benign_run file st hrecv hb
      have ih2 := ih { st with history := st.history ++ good_blocks file } hrecv
      simp only [file_decode_loop_run, hd]
      refine ⟨?_, ?_, ?_⟩ <;>
        simp [ih2.1, ih2.2.1, ih2.2.2, List.replicate_succ, List.append_assoc]

theorem flatten_replicate_length {α : Type} (n : Nat) (l : List α) :
    ((List.replicate n l).flatten).length = n * l.length := by
  induction n with
  | zero => simp
  | succ n ih => simp [List.replicate_succ, ih, Nat.succ_mul, Nat.add_comm]

theorem encoder_loop_ok_prefix {β : Type} (encode_ok : β → Bool) (bs : List β)
    (tail : List (RecvResult β)) (hbs : ∀ b ∈ bs, encode_ok b = true) :
    encoder_loop encode_ok (bs.map RecvResult.ok ++ tail)
      = (bs.map WorkerEvent.encoded ++ (encoder_loop encode_ok tail).1,
         (encoder_loop encode_ok tail).2) := by
  induction bs with
  | nil => simp
  | cons b bs ih =>
      have hb := hbs b (by simp)
      have h2 := ih (fun x hx => hbs x (by simp [hx]))
      simp [encoder_loop, hb, h2]

/-! Claim theorems. -/

/-- C1: the claim says a publish with zero current subscribers is a no-op
and the decoder keeps decoding while future subscribers remain possible.
On the code, with zero current receivers and the sender alive (so
`subscribe` would still attach a receiver at the live edge), `send`
fails, `decode_file_once` returns `Ok(false)` and `file_decode_loop`
exits: the decoder shuts down although future subscribers were possible. -/
theorem decoder_shuts_down_on_zero_subscribers :
    broadcast_send (⟨[], [], true⟩ : BroadcastState Nat) 0
        = ((⟨[], [], true⟩ : BroadcastState Nat), false) ∧
    decode_file_once [Packet.good 0] (⟨[], [], true⟩ : BroadcastState Nat)
        = ((⟨[], [], true⟩ : BroadcastState Nat), PassResult.shutdown) ∧
    file_decode_loop_run [Packet.good 0] 1 (⟨[], [], true⟩ : BroadcastState Nat)
        = ((⟨[], [], true⟩ : BroadcastState Nat),
            [LoopEvent.passDone PassResult.shutdown], true) ∧
    (subscribe_bus (⟨[], [], true⟩ : BroadcastState Nat)).receiverCursors
        = [0] := by decide

/-- C2 counterexample: after a lag signal the worker does not continue at
the live edge; the block available after the lag is never encoded and the
worker runs `encoder.finish()` and exits. -/
theorem encoder_worker_finalizes_on_lag :
    encoder_worker (fun _ : Nat => true)
        [RecvResult.ok 1, RecvResult.lagged 3, RecvResult.ok 2]
      = [WorkerEvent.encoded 1, WorkerEvent.finishedEncoder] ∧
    WorkerEvent.encoded 2 ∉
      encoder_worker (fun _ : Nat => true)
        [RecvResult.ok 1, RecvResult.lagged 3, RecvResult.ok 2] := by decide

/-- C2 amended: a lagged signal from the PCM bus ends the encoder loop the
same way closure does: the worker encodes nothing further, runs the
encoder finalize step and exits; the lag is swallowed by the
`while let Ok` pattern rather than logged and resumed. -/
theorem encoder_worker_lag_policy {β : Type} (encode_ok : β → Bool)
    (bs : List β) (n : Nat) (rest : List (RecvResult β))
    (hbs : ∀ b ∈ bs, encode_ok b = true) :
    encoder_worker encode_ok
        (bs.map RecvResult.ok ++ RecvResult.lagged n :: rest)
      = bs.map WorkerEvent.encoded ++ [WorkerEvent.finishedEncoder] := by
  have h := encoder_loop_ok_prefix encode_ok bs (RecvResult.lagged n :: rest) hbs
  simp [encoder_worker, h, encoder_loop]

/-- C2 witness: the lag policy theorem applied at a concrete input. -/
theorem encoder_worker_lag_policy_witness :
    encoder_worker (fun _ : Nat => true)
        ([5].map RecvResult.ok ++ RecvResult.lagged 2 :: [RecvResult.ok 7])
      = [5].map WorkerEvent.encoded ++ [WorkerEvent.finishedEncoder] :=
  encoder_worker_lag_policy (fun _ => true) [5] 2 [RecvResult.ok 7] (by decide)

/-- C3 counterexample: a mono block (one plane, as produced by the planar
conversion of a one channel source) is handed to the encoder with exactly
one plane, not `station_target_channels = 2` planes: no clamping or
padding happens between the bus and the encoder call. -/
theorem mono_block_reaches_encoder_with_one_plane :
    to_planar 1 [3, 4] = [[3, 4]] ∧
    (encoder_loop (fun _ : List (List Nat) => true)
        [RecvResult.ok (to_planar 1 [3, 4])]).1
      = [WorkerEvent.encoded [[3, 4]]] ∧
    (to_planar 1 [3, 4]).length = 1 ∧
    station_target_channels = 2 ∧
    (to_planar 1 [3, 4]).length ≠ station_target_channels := by decide

/-- C3 amended: the broadcaster performs no channel reshaping; every PCM
block received from the bus is handed to the codec encoder exactly as
received, with the source channel count, so the encoder input is not made
`target_channels` planes wide by this code (any reshaping is internal to
the external codec library). -/
theorem encoder_input_equals_received_block {β : Type} (encode_ok : β → Bool)
    (bs : List β) (hbs : ∀ b ∈ bs, encode_ok b = true) :
    encoder_loop encode_ok (bs.map RecvResult.ok)
      = (bs.map WorkerEvent.encoded, false) := by
  have h := encoder_loop_ok_prefix encode_ok bs [] hbs
  simpa [encoder_loop] using h

/-- C3 witness: the pass-through theorem applied at a concrete block. -/
theorem encoder_input_equals_received_block_witness :
    encoder_loop (fun _ : List (List Nat) => true) ([[[9]]].map RecvResult.ok)
      = ([[[9]]].map WorkerEvent.encoded, false) :=
  encoder_input_equals_received_block (fun _ => true) [[[9]]] (by decide)

theorem send_loop_counter_free (ws : List (Nat × Bool)) :
    SessionEvent.incCounter ∉ send_loop ws ∧
    SessionEvent.decCounter ∉ send_loop ws := by
  induction ws with
  | nil => simp [send_loop]
  | cons w ws ih =>
      obtain ⟨takes, succeeds⟩ := w
      rcases h : write_with_deadline send_timeout_secs takes succeeds with _ | _ | _ <;>
        simp [send_loop, h, ih.1, ih.2]

/-- C4 counterexample: a `listen` session cancelled while suspended at an
await point inside the send loop has executed the counter increment but
never executes the decrement, so the counter leaks upward and no longer
equals the number of sessions between accept and teardown. -/
theorem cancelled_listen_session_skips_decrement :
    listen_trace_cancelled [(1, true)]
      = [SessionEvent.incCounter, SessionEvent.logConnect,
         SessionEvent.subscribePcm, SessionEvent.spawnEncoder,
         SessionEvent.wroteChunk] ∧
    (listen_trace_cancelled [(1, true)]).count SessionEvent.incCounter = 1 ∧
    (listen_trace_cancelled [(1, true)]).count SessionEvent.decCounter = 0 := by
  decide

/-- C4 amended: the increment is the first step of every accept, and on the
exit paths that run to completion (queue closure, write error, stall) the
trace contains exactly one increment and one decrement, with the decrement
the last counter operation, followed only by the disconnect log. The
cleanup is straight-line code after the send loop with no cancellation
guard, so a session cancelled at an await point performs the increment and
never the decrement: the counter can leak upward under cancellation. -/
theorem listener_counter_discipline (writes done : List (Nat × Bool))
    (_hdone : ∀ w ∈ done,
        write_with_deadline send_timeout_secs w.1 w.2 = WriteOutcome.okInTime) :
    (listen_trace writes).head? = some SessionEvent.incCounter ∧
    (listen_trace writes).count SessionEvent.incCounter = 1 ∧
    (listen_trace writes).count SessionEvent.decCounter = 1 ∧
    listen_trace writes
      = (accept_steps ++ send_loop writes
          ++ [SessionEvent.finishStream, SessionEvent.abortEncoder])
          ++ [SessionEvent.decCounter, SessionEvent.logDisconnect] ∧
    (listen_trace_cancelled done).count SessionEvent.incCounter = 1 ∧
    (listen_trace_cancelled done).count SessionEvent.decCounter = 0 := by
  have hfree := send_loop_counter_free writes
  have hfree2 := send_loop_counter_free done
  have hw1 : (send_loop writes).count SessionEvent.incCounter = 0 :=
    List.count_eq_zero_of_not_mem hfree.1
  have hw2 : (send_loop writes).count SessionEvent.decCounter = 0 :=
    List.count_eq_zero_of_not_mem hfree.2
  have hd1 : (send_loop done).count SessionEvent.incCounter = 0 :=
    List.count_eq_zero_of_not_mem hfree2.1
  have hd2 : (send_loop done).count SessionEvent.decCounter = 0 :=
    List.count_eq_zero_of_not_mem hfree2.2
  refine ⟨?_, ?_, ?_, ?_, ?_, ?_⟩
  · simp [listen_trace, accept_steps]
  · rw [listen_trace, List.count_append, List.count_append, hw1]
    decide
  · rw [listen_trace, List.count_append, List.count_append, hw2]
    decide
  · simp [listen_trace, cleanup_steps]
  · rw [listen_trace_cancelled, List.count_append, hd1]
    decide
  · rw [listen_trace_cancelled, List.count_append, hd2]
    decide

/-- C4 witness: the counter discipline theorem applied at concrete inputs. -/
theorem listener_counter_discipline_witness :
    (listen_trace [(31, true)]).count SessionEvent.incCounter = 1 ∧
    (listen_trace [(31, true)]).count SessionEvent.decCounter = 1 := by
  have h := listener_counter_discipline [(31, true)] [(1, true)] (by decide)
  exact ⟨h.2.1, h.2.2.1⟩

/-- C5 counterexample: the id comes from the same counter that teardown
decrements, so after two listeners connect and both disconnect, the next
listener is assigned id 0 again: the id sequence [0, 1, 0] is neither
fresh (0 repeats) nor monotonically non-decreasing (1 is followed by 0). -/
theorem listener_ids_repeat_after_disconnects :
    (run_listener_events usize_modulus
        [ListenerEvent.accept, ListenerEvent.accept, ListenerEvent.teardown,
         ListenerEvent.teardown, ListenerEvent.accept] 0).2 = [0, 1, 0] ∧
    ¬ List.Sorted (· ≤ ·)
        (run_listener_events usize_modulus
          [ListenerEvent.accept, ListenerEvent.accept, ListenerEvent.teardown,
           ListenerEvent.teardown, ListenerEvent.accept] 0).2 ∧
    ¬ ((run_listener_events usize_modulus
          [ListenerEvent.accept, ListenerEvent.accept, ListenerEvent.teardown,
           ListenerEvent.teardown, ListenerEvent.accept] 0).2).Nodup := by
  decide

theorem run_accepts_eq_range (M : Nat) (es : List ListenerEvent) :
    ∀ c : Nat, (∀ e ∈ es, e = ListenerEvent.accept) →
      c + es.length < M →
      (run_listener_events M es c).2 = List.range' c es.length := by
  induction es with
  | nil => intro c _ _; simp [run_listener_events]
  | cons e es ih =>
      intro c hacc hlt
      have he : e = ListenerEvent.accept := hacc e (by simp)
      subst he
      have hc1 : (c + 1) % M = c + 1 := by
        apply Nat.mod_eq_of_lt
        simp only [List.length_cons] at hlt
        omega
      have h2 := ih (c + 1) (fun x hx => hacc x (by simp [hx]))
        (by simp only [List.length_cons] at hlt; omega)
      simp [run_listener_events, hc1, h2, List.range'_succ]

/-- C5 amended: within a run in which no listener disconnects, every listen
call gets a fresh id and the ids are strictly increasing in accept order
(the id is the previous counter value of the `fetch_add`); once teardowns
decrement the shared counter, ids are reused, so across disconnects the
sequence is neither fresh nor non-decreasing. -/
theorem listener_ids_fresh_without_disconnects (es : List ListenerEvent)
    (c : Nat) (hacc : ∀ e ∈ es, e = ListenerEvent.accept)
    (hlt : c + es.length < usize_modulus) :
    (run_listener_events usize_modulus es c).2 = List.range' c es.length ∧
    List.Sorted (· < ·) (run_listener_events usize_modulus es c).2 ∧
    ((run_listener_events usize_modulus es c).2).Nodup := by
  have h := run_accepts_eq_range usize_modulus es c hacc hlt
  refine ⟨h, ?_, ?_⟩
  · rw [h]; exact List.pairwise_lt_range' c es.length
  · rw [h]; exact List.nodup_range' c es.length

/-- C5 witness: the freshness theorem applied at two consecutive accepts. -/
theorem listener_ids_fresh_without_disconnects_witness :
    (run_listener_events usize_modulus
        [ListenerEvent.accept, ListenerEvent.accept] 0).2
      = List.range' 0 2 := by
  have h := listener_ids_fresh_without_disconnects
    [ListenerEvent.accept, ListenerEvent.accept] 0 (by decide)
    (by norm_num [usize_modulus])
  simpa using h.1

/-- C6: each chunk write runs under the 30 second `SEND_TIMEOUT` deadline;
a write that completes in time continues the loop, an io error or an
expired deadline ends the session, and every completed session then runs
`finish()`, aborts the encoder task and decrements the listener counter,
in that order. -/
theorem send_loop_deadline_and_cleanup (writes rest : List (Nat × Bool))
    (takes : Nat) :
    send_timeout_secs = 30 ∧
    (takes ≤ send_timeout_secs →
        send_loop ((takes, true) :: rest)
          = SessionEvent.wroteChunk :: send_loop rest) ∧
    (takes ≤ send_timeout_secs →
        send_loop ((takes, false) :: rest) = [SessionEvent.writeError]) ∧
    (send_timeout_secs < takes →
        send_loop ((takes, true) :: rest) = [SessionEvent.writeTimeout]) ∧
    (send_timeout_secs < takes →
        send_loop ((takes, false) :: rest) = [SessionEvent.writeTimeout]) ∧
    listen_trace writes
      = accept_steps ++ send_loop writes
          ++ [SessionEvent.finishStream, SessionEvent.abortEncoder,
              SessionEvent.decCounter, SessionEvent.logDisconnect] := by
  refine ⟨rfl, ?_, ?_, ?_, ?_, ?_⟩
  · intro hle
    simp [send_loop, write_with_deadline, Nat.not_lt.mpr hle]
  · intro hle
    simp [send_loop, write_with_deadline, Nat.not_lt.mpr hle]
  · intro hlt
    simp [send_loop, write_with_deadline, hlt]
  · intro hlt
    simp [send_loop, write_with_deadline, hlt]
  · simp [listen_trace, cleanup_steps]

/-- C6 witness: the deadline theorem applied at a concrete timely write. -/
theorem send_loop_deadline_and_cleanup_witness :
    send_loop ((1, true) :: []) = [SessionEvent.wroteChunk] := by
  have h := (send_loop_deadline_and_cleanup [] [] 1).2.1 (by decide)
  simpa [send_loop] using h

/-- C7: the decode error policy. Bad packets (`DecodeError`) are skipped
without breaking the stream; any other decode error aborts the pass with
the already decoded blocks published; `ResetRequired` or end of stream
ends the pass with the looping result; an aborted pass is followed in the
outer loop by a one second sleep and a restart from the beginning of the
file; and while the bus keeps accepting publishes (receivers present), a
finite file of decodable packets yields `n * blocks_per_pass` published
blocks after `n` loop iterations with the loop never exiting, so the
published stream is unbounded. -/
theorem decoder_error_policy (st : BroadcastState Nat)
    (ps1 ps2 file : List (Packet Nat)) (n : Nat)
    (hrecv : st.receiverCursors ≠ [])
    (hb1 : ∀ p ∈ ps1, p.benign = true)
    (hfile : ∀ p ∈ file, p.benign = true) :
    (∀ (qs1 qs2 : List (Packet Nat)) (st2 : BroadcastState Nat),
        decode_file_once (qs1 ++ Packet.badPacket :: qs2) st2
          = decode_file_once (qs1 ++ qs2) st2) ∧
    decode_file_once (ps1 ++ Packet.fatalDecode :: ps2) st
      = ({ st with history := st.history ++ good_blocks ps1 },
          PassResult.aborted) ∧
    decode_file_once (ps1 ++ Packet.resetRequired :: ps2) st
      = ({ st with history := st.history ++ good_blocks ps1 },
          PassResult.looping) ∧
    decode_file_once ps1 st
      = ({ st with history := st.history ++ good_blocks ps1 },
          PassResult.looping) ∧
    (∀ (f2 : List (Packet Nat)) (st2 : BroadcastState Nat) (m : Nat),
        (decode_file_once f2 st2).2 = PassResult.aborted →
        (file_decode_loop_run f2 (m + 1) st2).2.1.take 2
          = [LoopEvent.passDone PassResult.aborted, LoopEvent.sleep_secs 1]) ∧
    (file_decode_loop_run file n st).1.history.length
        = st.history.length + n * (good_blocks file).length ∧
    (file_decode_loop_run file n st).2.2 = false := by
  have hloop := loop_benign_run file n st hrecv hfile
  refine ⟨?_, ?_, ?_, ?_, ?_, ?_, ?_⟩
  · intro qs1 qs2 st2
    exact decode_skip_bad qs1 qs2 st2
  · have h := decode_benign_append ps1 (Packet.fatalDecode :: ps2) st hrecv hb1
    simpa [decode_file_once] using h
  · have h := decode_benign_append ps1 (Packet.resetRequired :: ps2) st hrecv hb1
    simpa [decode_file_once] using h
  · exact decode_benign_run ps1 st hrecv hb1
  · intro f2 st2 m habort
    rcases hd : decode_file_once f2 st2 with ⟨st3, r⟩
    rw [hd] at habort
    have hr : r = PassResult.aborted := habort
    subst hr
    simp [file_decode_loop_run, hd]
  · rw [hloop.1]
    simp [flatten_replicate_length]
  · exact hloop.2.2

/-- C7 witness: the error policy theorem applied at a concrete file with a
bad packet, three loop iterations and one live subscriber. -/
theorem decoder_error_policy_witness :
    (file_decode_loop_run [Packet.good 1, Packet.badPacket, Packet.good 2] 3
        (⟨[], [0], true⟩ : BroadcastState Nat)).1.history.length = 6 ∧
    (file_decode_loop_run [Packet.good 1, Packet.badPacket, Packet.good 2] 3
        (⟨[], [0], true⟩ : BroadcastState Nat)).2.2 = false := by
  have h := decoder_error_policy ⟨[], [0], true⟩ [Packet.good 5]
    [Packet.good 6] [Packet.good 1, Packet.badPacket, Packet.good 2] 3
    (by decide) (by decide) (by decide)
  refine ⟨?_, h.2.2.2.2.2.2⟩
  have h6 := h.2.2.2.2.2.1
  rw [h6]
  decide

/-- C8: the byte sink accumulates written bytes and sends the whole buffer
as one chunk exactly when it has reached 8192 bytes, flush sends any
non-empty residue, a send on a closed queue (listener disconnected)
becomes a broken-pipe error, the queue capacity is 10, and the worker runs
the encoder finalize step and exits both when the encode step fails (as it
does on a broken pipe from the sink) and when the input channel closes. -/
theorem channel_writer_and_worker (w : ChannelWriter) (q : OggQueue)
    (buf : List Nat) (b : Nat) (rest : List (RecvResult Nat))
    (encode_ok : Nat → Bool)
    (hopen : q.closed = false) (hfail : encode_ok b = false) :
    ogg_queue_capacity = 10 ∧
    ((w.buffer ++ buf).length < 8192 →
        channel_writer_write w q buf
          = Except.ok (⟨w.buffer ++ buf⟩, q, buf.length)) ∧
    (8192 ≤ (w.buffer ++ buf).length →
        channel_writer_write w q buf
          = Except.ok (⟨[]⟩, { q with sent := q.sent ++ [w.buffer ++ buf] },
              buf.length)) ∧
    (∀ qc : OggQueue, qc.closed = true → 8192 ≤ (w.buffer ++ buf).length →
        channel_writer_write w qc buf = Except.error IoErrorKind.brokenPipe) ∧
    (w.buffer ≠ [] →
        channel_writer_flush w q
          = Except.ok (⟨[]⟩, { q with sent := q.sent ++ [w.buffer] })) ∧
    (∀ qc : OggQueue, qc.closed = true → w.buffer ≠ [] →
        channel_writer_flush w qc = Except.error IoErrorKind.brokenPipe) ∧
    (w.buffer = [] → channel_writer_flush w q = Except.ok (w, q)) ∧
    encoder_worker encode_ok (RecvResult.ok b :: rest)
      = [WorkerEvent.encodeError, WorkerEvent.finishedEncoder] ∧
    (∀ rest2 : List (RecvResult Nat),
        encoder_worker encode_ok (RecvResult.closed :: rest2)
          = [WorkerEvent.finishedEncoder]) := by
  refine ⟨rfl, ?_, ?_, ?_, ?_, ?_, ?_, ?_, ?_⟩
  · intro hlt
    have h2 : ¬ 8192 ≤ (w.buffer ++ buf).length := Nat.not_le.mpr hlt
    simp only [channel_writer_write]
    rw [if_neg h2]
  · intro hge
    simp only [channel_writer_write]
    rw [if_pos hge]
    simp [blocking_send_chunk, hopen]
  · intro qc hc hge
    simp only [channel_writer_write]
    rw [if_pos hge]
    simp [blocking_send_chunk, hc]
  · intro hne
    simp only [channel_writer_flush]
    rw [if_neg hne]
    simp [blocking_send_chunk, hopen]
  · intro qc hc hne
    simp only [channel_writer_flush]
    rw [if_neg hne]
    simp [blocking_send_chunk, hc]
  · intro he
    simp only [channel_writer_flush]
    rw [if_pos he]
  · simp [encoder_worker, encoder_loop, hfail]
  · intro rest2
    simp [encoder_worker, encoder_loop]

/-- C8 witness: a flush of a non-empty residue against a closed queue
yields the broken-pipe error. -/
theorem channel_writer_and_worker_witness :
    channel_writer_flush ⟨[5]⟩ ⟨true, []⟩
      = Except.error IoErrorKind.brokenPipe := by
  have h := channel_writer_and_worker ⟨[5]⟩ ⟨false, []⟩ [] 0 []
    (fun _ => false) rfl rfl
  exact h.2.2.2.2.2.1 ⟨true, []⟩ rfl (by decide)

theorem chat_loop_ok_all {β : Type} (sink_ok : β → Bool) (ms : List β)
    (tail : List (RecvResult β)) (hms : ∀ m ∈ ms, sink_ok m = true) :
    chat_stream_loop sink_ok (ms.map RecvResult.ok ++ tail)
      = ms ++ chat_stream_loop sink_ok tail := by
  induction ms with
  | nil => simp
  | cons m ms ih =>
      have hm := hms m (by simp)
      simp [chat_stream_loop, hm, ih (fun x hx => hms x (by simp [hx]))]

theorem getElem_mem_drop {α : Type} (l : List α) (c i : Nat)
    (hi : i < l.length) (hc : c ≤ i) : l[i] ∈ l.drop c := by
  induction c generalizing l i with
  | zero => exact List.getElem_mem hi
  | succ c ih =>
      cases l with
      | nil => simp at hi
      | cons a l =>
          cases i with
          | zero => omega
          | succ i =>
              have h2 := ih l i (by simpa using hi) (by omega)
              simpa using h2

/-- C9 counterexample: a subscriber whose cursor has fallen 102 messages
behind a bus of capacity 100 receives a lag signal first; the
`while let Ok` loop of `chat_stream` then exits, so nothing at all is
forwarded to the sink even though every one of the 102 messages was
published after the subscription and the sink accepts everything: lag ends
the subscription instead of continuing at the live edge. -/
theorem chat_lag_ends_subscription :
    (chat_stream (fun _ : Nat => true) (List.range 102) 0).1 = [] ∧
    chat_channel_capacity = 100 ∧
    (List.range 102).length = 102 := by decide

/-- C9 amended: `chat_stream` forwards to the sink exactly the messages
published after the subscription cursor (none from before it), as long as
no lag occurs; any subscriber within the retention window receives each
such message, so two subscribers attached before a message is published
both receive it; a sink failure, bus closure, and also a lag signal all
terminate the subscription cleanly with the ok result (lag does not
continue at the live edge). -/
theorem chat_stream_policy {β : Type} (sink_ok : β → Bool) :
    (∀ (pre post : List β), post.length ≤ chat_channel_capacity →
        (∀ m ∈ post, sink_ok m = true) →
        chat_stream sink_ok (pre ++ post) pre.length
          = (post, Except.ok ())) ∧
    (∀ (h : List β) (c i : Nat) (hi : i < h.length), c ≤ i →
        h.length - c ≤ chat_channel_capacity →
        (∀ m ∈ h, sink_ok m = true) →
        h[i] ∈ (chat_stream sink_ok h c).1) ∧
    (∀ (m : β) (rest : List (RecvResult β)), sink_ok m = false →
        chat_stream_loop sink_ok (RecvResult.ok m :: rest) = []) ∧
    (∀ (n : Nat) (rest : List (RecvResult β)),
        chat_stream_loop sink_ok (RecvResult.lagged n :: rest) = []) ∧
    (∀ (rest : List (RecvResult β)),
        chat_stream_loop sink_ok (RecvResult.closed :: rest) = []) ∧
    (∀ (h : List β) (c : Nat), (chat_stream sink_ok h c).2 = Except.ok ()) := by
  refine ⟨?_, ?_, ?_, ?_, ?_, ?_⟩
  · intro pre post hlen hok
    have hc : ¬ (chat_channel_capacity < (pre ++ post).length - pre.length) := by
      simp only [List.length_append]
      omega
    simp only [chat_stream, chat_recv_drain, if_neg hc, List.drop_left]
    rw [chat_loop_ok_all sink_ok post [RecvResult.closed] hok]
    simp [chat_stream_loop]
  · intro h c i hi hc hcap hok
    have hcnot : ¬ (chat_channel_capacity < h.length - c) := by omega
    simp only [chat_stream, chat_recv_drain, if_neg hcnot]
    rw [chat_loop_ok_all sink_ok (h.drop c) [RecvResult.closed]
      (fun m hm => hok m (List.mem_of_mem_drop hm))]
    simp only [chat_stream_loop, List.append_nil]
    exact getElem_mem_drop h c i hi hc
  · intro m rest hm
    simp [chat_stream_loop, hm]
  · intro n rest
    simp [chat_stream_loop]
  · intro rest
    simp [chat_stream_loop]
  · intro h c
    rfl

/-- C9 witness: the delivery part of the policy theorem at a concrete bus:
a subscriber attached after one message receives exactly the two messages
published afterwards. -/
theorem chat_stream_policy_witness :
    chat_stream (fun _ : Nat => true) ([1] ++ [2, 3]) [1].length
      = ([2, 3], Except.ok ()) :=
  (chat_stream_policy (fun _ : Nat => true)).1 [1] [2, 3] (by decide) (by decide)

/-- C10: `send_chat` returns the error string exactly when the
per-connection `ListenerInfo` is missing; with the info present it builds
the `ChatMessage` from the caller id, nickname, message and wall-clock
seconds, publishes it, discards the publish result (so a bus with zero
subscribers still yields ok) and returns ok. -/
theorem send_chat_contract (info : ListenerInfo) (msg : String) (now : Nat)
    (bus : BroadcastState ChatMessage) (hrecv : bus.receiverCursors ≠ []) :
    send_chat none msg now bus = Except.error "Listener info not found" ∧
    (∀ bus2 : BroadcastState ChatMessage,
        send_chat (some info) msg now bus2
          = Except.ok (broadcast_send bus2
              ⟨info.id, info.nickname, msg, now⟩).1) ∧
    send_chat (some info) msg now bus
      = Except.ok { bus with history :=
          bus.history ++ [⟨info.id, info.nickname, msg, now⟩] } ∧
    (∀ bus0 : BroadcastState ChatMessage, bus0.receiverCursors = [] →
        send_chat (some info) msg now bus0 = Except.ok bus0) ∧
    (∀ (i : Option ListenerInfo) (e : String),
        send_chat i msg now bus = Except.error e → i = none) := by
  refine ⟨rfl, fun bus2 => rfl, ?_, ?_, ?_⟩
  · have h := broadcast_send_of_receivers bus
      (⟨info.id, info.nickname, msg, now⟩ : ChatMessage) hrecv
    simp [send_chat, h]
  · intro bus0 h0
    simp [send_chat, broadcast_send, h0]
  · intro i e he
    cases i with
    | none => rfl
    | some li => simp [send_chat] at he

/-- C10 witness: the contract applied at a concrete caller and bus with
one subscriber. -/
theorem send_chat_contract_witness :
    send_chat (some ⟨7, some "dj"⟩) "hello" 42
        (⟨[], [0], true⟩ : BroadcastState ChatMessage)
      = Except.ok ⟨[⟨7, some "dj", "hello", 42⟩], [0], true⟩ := by
  have h := send_chat_contract ⟨7, some "dj"⟩ "hello" 42 ⟨[], [0], true⟩
    (by decide)
  simpa using h.2.2.1

end Zelfm
